import Mathlib

/-!
Verification of the `mouse-leveldb` wrapper (src/src/lib.rs, src/src/database.rs,
src/src/options.rs) as a shallow embedding.

The native leveldb engine is an external collaborator.  It is modelled by:
* an explicit `EngineState` recording the engine-side objects the wrapper
  manipulates through the C API (the allocated write-batch handles together
  with their accumulated entries) and logs of the calls the wrapper issues
  (`leveldb_write` submissions, `leveldb_open` calls with the configuration
  passed, `leveldb_close` and `leveldb_writebatch_destroy` releases);
* oracle parameters for the engine's fallible responses (`OpenResp`, the
  optional error string of `leveldb_write`, `GetResp` for `leveldb_get`).

Rust panics (`assert_eq!`, `Option::unwrap`) are modelled by returning `none`;
a `some` result is a normal return.  Byte sequences are `List Nat`.
-/

namespace MouseLeveldb

/-- Byte sequences (`&[u8]` / engine-allocated byte ranges). -/
abbrev Bytes := List Nat

/-- A pending write-batch entry: a `(key, value)` pair. -/
abbrev Entry := Bytes × Bytes

/-- The configuration object behind `*mut leveldb_options_t`, restricted to the
fields that `src/src/options.rs` touches. -/
structure OptionsObj where
  create_if_missing : Bool
  error_if_exists : Bool
  paranoid_checks : Bool
deriving DecidableEq, Repr

/-- The freshly created engine options object (`leveldb_options_create`); the
engine's defaults for the three modelled flags are all `false` (every one of
them is overwritten by `Options::new` before use, so the defaults are inert). -/
def leveldb_options_create : OptionsObj :=
  { create_if_missing := false, error_if_exists := false, paranoid_checks := false }

/-- `Options::new` from src/src/options.rs: creates the engine options object and
calls the three setters `create_if_missing := TRUE`, `error_if_exists := FALSE`,
`paranoid_checks := TRUE`. -/
def Options.new : OptionsObj :=
  let p := leveldb_options_create
  let p := { p with create_if_missing := true }
  let p := { p with error_if_exists := false }
  let p := { p with paranoid_checks := true }
  p

/-- The process-wide lazily initialized `static OPTIONS: Lazy<Options>` of
src/src/lib.rs; in the embedding it is the one-time value `Options.new`, and
nothing in the development ever produces a modified copy. -/
def OPTIONS : OptionsObj := Options.new

/-- The engine-side state visible through the C API used by the wrapper. -/
structure EngineState where
  /-- source of fresh (non-null) write-batch handles -/
  nextHandle : Nat
  /-- allocated write-batch handles with their accumulated entries, newest first -/
  batches : List (Nat × List Entry)
  /-- log of `leveldb_write` submissions: (database handle, entries submitted) -/
  writeLog : List (Nat × List Entry)
  /-- log of `leveldb_open` calls: (options passed, path) -/
  openLog : List (OptionsObj × Bytes)
  /-- log of `leveldb_close` calls (released database handles) -/
  closeLog : List Nat
  /-- log of `leveldb_writebatch_destroy` calls (released batch handles) -/
  destroyLog : List Nat
deriving DecidableEq, Repr

/-- The empty engine: nothing allocated, no calls issued. -/
def EngineState.init : EngineState :=
  { nextHandle := 0, batches := [], writeLog := [], openLog := [],
    closeLog := [], destroyLog := [] }

/-- Association-list lookup over the allocated batch handles. -/
def assocFind : List (Nat × List Entry) → Nat → Option (List Entry)
  | [], _ => none
  | (k, v) :: rest, h => if k = h then some v else assocFind rest h

/-- Entries currently held by batch handle `h`, if `h` is allocated. -/
def lookupBatch (es : EngineState) (h : Nat) : Option (List Entry) :=
  assocFind es.batches h

/-- Pointwise update of the entries of handle `h` (no-op on other handles and
when `h` is not allocated). -/
def assocUpd : List (Nat × List Entry) → Nat → (List Entry → List Entry) →
    List (Nat × List Entry)
  | [], _, _ => []
  | (k, v) :: rest, h, f =>
    (if k = h then (k, f v) else (k, v)) :: assocUpd rest h f

/-- `leveldb_writebatch_create`: allocates a fresh batch handle with no entries. -/
def leveldb_writebatch_create (es : EngineState) : EngineState × Nat :=
  ({ es with nextHandle := es.nextHandle + 1,
             batches := (es.nextHandle, []) :: es.batches }, es.nextHandle)

/-- `leveldb_writebatch_put`: appends `(k, v)` to the entries of handle `h`
(the engine copies both byte sequences). -/
def leveldb_writebatch_put (es : EngineState) (h : Nat) (k v : Bytes) :
    EngineState :=
  { es with batches := assocUpd es.batches h (fun l => l ++ [(k, v)]) }

/-- `leveldb_writebatch_clear`: removes all entries of handle `h`, keeping the
handle allocated. -/
def leveldb_writebatch_clear (es : EngineState) (h : Nat) : EngineState :=
  { es with batches := assocUpd es.batches h (fun _ => []) }

/-- `leveldb_writebatch_destroy`: releases handle `h`. -/
def leveldb_writebatch_destroy (es : EngineState) (h : Nat) : EngineState :=
  { es with batches := es.batches.filter (fun p => p.1 ≠ h),
            destroyLog := h :: es.destroyLog }

/-- `leveldb_write`: atomically submits the entries of batch handle `bh` to
database handle `dbh`; the submission is recorded whether or not the engine
then reports an error (the error string is an oracle at the wrapper level).
Per the engine contract it does not itself clear the batch. -/
def leveldb_write (es : EngineState) (dbh bh : Nat) : EngineState :=
  { es with writeLog := (dbh, (lookupBatch es bh).getD []) :: es.writeLog }

/-- `leveldb_close`: releases database handle `h`. -/
def leveldb_close (es : EngineState) (h : Nat) : EngineState :=
  { es with closeLog := h :: es.closeLog }

/-- Modelled from the spec: the structured error type of `src/src/error.rs`,
which is not among the sources (only `error::new` and `Error` are used from
src/src/lib.rs and src/src/database.rs).  Per spec section 7 an
`EngineFailure` "carries the engine's human-readable message verbatim", owning
the native string until dropped; the model keeps just the message. -/
structure Error where
  message : String
deriving DecidableEq, Repr

/-- Modelled from the spec: `error::new(ptr)` wraps a non-null native error
string as an `Error` carrying the message verbatim. -/
def error.new (msg : String) : Error := ⟨msg⟩

/-- src/src/lib.rs: `pub struct WriteBatch(Option<*mut leveldb_writebatch_t>)`.
The single field is the optional native handle. -/
structure WriteBatch where
  ptr : Option Nat
deriving DecidableEq, Repr

/-- `WriteBatch::new`: the `Empty` state, no native handle. -/
def WriteBatch.new : WriteBatch := ⟨none⟩

/-- `WriteBatch::init`: `assert_eq!(None, self.0)` (panic — `none` — if a
handle is already allocated), then `leveldb_writebatch_create` and store the
fresh handle. -/
def WriteBatch.init (b : WriteBatch) (es : EngineState) :
    Option (WriteBatch × EngineState) :=
  match b.ptr with
  | some _ => none
  | none =>
    let r := leveldb_writebatch_create es
    some (⟨some r.2⟩, r.1)

/-- `WriteBatch::put`: if no handle exists yet, `init`; then unwrap the handle
and `leveldb_writebatch_put` the pair. -/
def WriteBatch.put (b : WriteBatch) (es : EngineState) (k v : Bytes) :
    Option (WriteBatch × EngineState) :=
  match (match b.ptr with
         | none => WriteBatch.init b es
         | some _ => some (b, es)) with
  | none => none
  | some (b', es') =>
    match b'.ptr with
    | none => none
    | some h => some (b', leveldb_writebatch_put es' h k v)

/-- `WriteBatch::clear`: `leveldb_writebatch_clear` if a handle exists,
otherwise nothing; the handle itself is retained. -/
def WriteBatch.clear (b : WriteBatch) (es : EngineState) :
    WriteBatch × EngineState :=
  match b.ptr with
  | none => (b, es)
  | some h => (b, leveldb_writebatch_clear es h)

/-- `WriteBatch::destroy`: `leveldb_writebatch_destroy` if a handle exists and
reset the field to `None`; otherwise nothing. -/
def WriteBatch.destroy (b : WriteBatch) (es : EngineState) :
    WriteBatch × EngineState :=
  match b.ptr with
  | none => (b, es)
  | some h => (⟨none⟩, leveldb_writebatch_destroy es h)

/-- src/src/database.rs: `pub struct Database(Option<*mut leveldb_t>)`. -/
structure Database where
  ptr : Option Nat
deriving DecidableEq, Repr

/-- `Database::new`: the `Unopened` state. -/
def Database.new : Database := ⟨none⟩

/-- src/src/database.rs `as_ptr`: the wrapped optional native handle. -/
def as_ptr (db : Database) : Option Nat := db.ptr

/-- Engine response of `leveldb_open`: either a non-null error string (and a
null database handle) or no error and a non-null handle — the two `assert_eq!`
in `Database::open` pin exactly this shape. -/
inductive OpenResp where
  | failure (msg : String)
  | success (h : Nat)
deriving DecidableEq, Repr

/-- `Database::open`: `assert_eq!(None, self.0)` (panic — `none` — if already
open), then `leveldb_open(OPTIONS.as_ptr(), path, errptr)`; on a non-null
error string return `Err(error::new(e))` leaving the field `None`, otherwise
store the returned handle and return `Ok(())`. -/
def Database.open (db : Database) (es : EngineState) (path : Bytes)
    (resp : OpenResp) : Option (Database × EngineState × Except Error Unit) :=
  match db.ptr with
  | some _ => none
  | none =>
    let es' := { es with openLog := (OPTIONS, path) :: es.openLog }
    match resp with
    | .failure msg => some (db, es', Except.error (error.new msg))
    | .success h => some (⟨some h⟩, es', Except.ok ())

/-- `Database::close`: `leveldb_close` and reset to `None` if opened,
otherwise nothing. -/
def Database.close (db : Database) (es : EngineState) :
    Database × EngineState :=
  match db.ptr with
  | none => (db, es)
  | some h => (⟨none⟩, leveldb_close es h)

/-- src/src/lib.rs free function `write(db, batch)`: if the batch holds no
native handle, `Ok(())` untouched; otherwise `leveldb_write` with the database
handle (`as_ptr(db).unwrap()` — panic if unopened), the process-wide write
options and the batch handle, then unconditionally `leveldb_writebatch_clear`,
and finally inspect the error string (`resp`). -/
def write (db : Database) (batch : WriteBatch) (es : EngineState)
    (resp : Option String) :
    Option (WriteBatch × EngineState × Except Error Unit) :=
  match batch.ptr with
  | none => some (batch, es, Except.ok ())
  | some bh =>
    match as_ptr db with
    | none => none
    | some dbh =>
      let es₁ := leveldb_write es dbh bh
      let es₂ := leveldb_writebatch_clear es₁ bh
      match resp with
      | none => some (batch, es₂, Except.ok ())
      | some msg => some (batch, es₂, Except.error (error.new msg))

/-- src/src/lib.rs: `Octets { ptr_: Option<*mut u8>, len_: usize }`.  The model
carries, in place of the raw pointer, the engine-allocated byte range behind
it. -/
structure Octets where
  ptr_ : Option Bytes
  len_ : Nat
deriving DecidableEq, Repr

/-- `Octets::new(ptr, len)`: on a null pointer `assert_eq!(0, len)` (panic —
`none` — otherwise) and build the unallocated form; on a non-null pointer wrap
it with the given length. -/
def Octets.new (ptr : Option Bytes) (len : Nat) : Option Octets :=
  match ptr with
  | none => if len = 0 then some ⟨none, len⟩ else none
  | some bytes => some ⟨some bytes, len⟩

/-- `Octets`' `Deref`: the empty slice on a null pointer, otherwise the `len_`
bytes behind the pointer (`slice::from_raw_parts(ptr, len_)`). -/
def Octets.deref (a : Octets) : Bytes :=
  match a.ptr_ with
  | none => []
  | some bytes => bytes.take a.len_

/-- Engine response of `leveldb_get`: a non-null value buffer with its length,
a null pointer with no error (not found, `vallen` left at 0), or a null
pointer with a non-null error string. -/
inductive GetResp where
  | found (bytes : Bytes)
  | notFound
  | failure (msg : String)
deriving DecidableEq, Repr

/-- src/src/lib.rs free function `get(db, key)`: `leveldb_get` with
`as_ptr(db).unwrap()` (panic — `none` — if unopened), the read options and the
key; on a non-null error string `Err(error::new(ptr))`, otherwise
`Ok(Octets::new(pval, vallen))`. -/
def get (db : Database) (key : Bytes) (resp : GetResp) :
    Option (Except Error Octets) :=
  match as_ptr db with
  | none => none
  | some _ =>
    match resp with
    | .failure msg => some (Except.error (error.new msg))
    | .notFound =>
      match Octets.new none 0 with
      | none => none
      | some o => some (Except.ok o)
    | .found bytes =>
      match Octets.new (some bytes) bytes.length with
      | none => none
      | some o => some (Except.ok o)

/-- `Octets`' `PartialEq`: equality of the two byte views (`&[u8]` equality). -/
def Octets.beq (a b : Octets) : Bool := a.deref == b.deref

/-- The `Ord` instance of `&[u8]` that `Octets`' `Ord` delegates to:
elementwise comparison of the byte views, ties broken by length. -/
def byteCmp : Bytes → Bytes → Ordering
  | [], [] => .eq
  | [], _ :: _ => .lt
  | _ :: _, [] => .gt
  | a :: as, b :: bs =>
    if a < b then .lt else if b < a then .gt else byteCmp as bs

/-- `Octets`' `Ord::cmp`: compare the two byte views. -/
def Octets.cmp (a b : Octets) : Ordering := byteCmp a.deref b.deref

/-- `Octets`' `Hash`: feed the byte view to the hasher; `f` abstracts the
hasher state accumulated from a byte slice. -/
def Octets.hash (f : Bytes → Nat) (a : Octets) : Nat := f a.deref

/-- A sample engine state for concrete evaluations: batch handle 1 is
allocated and holds one pending entry. -/
def sampleEngine : EngineState :=
  { EngineState.init with nextHandle := 2, batches := [(1, [([1], [2])])] }

/-- Unfolding of `assocFind` on a cons cell. -/
theorem assocFind_cons (k : Nat) (v : List Entry) (rest : List (Nat × List Entry))
    (h : Nat) :
    assocFind ((k, v) :: rest) h = if k = h then some v else assocFind rest h := rfl

/-- Unfolding of `assocUpd` on a cons cell. -/
theorem assocUpd_cons (k : Nat) (v : List Entry) (rest : List (Nat × List Entry))
    (h : Nat) (f : List Entry → List Entry) :
    assocUpd ((k, v) :: rest) h f
      = (if k = h then (k, f v) else (k, v)) :: assocUpd rest h f := rfl

/-- Looking a handle up after a pointwise update applies the update to the
stored entries. -/
theorem assocFind_assocUpd (l : List (Nat × List Entry)) (h : Nat)
    (f : List Entry → List Entry) :
    assocFind (assocUpd l h f) h = (assocFind l h).map f := by
  induction l with
  | nil => rfl
  | cons p rest ih =>
    obtain ⟨k, v⟩ := p
    by_cases hk : k = h
    · subst hk
      simp [assocUpd_cons, assocFind_cons]
    · simp [assocUpd_cons, assocFind_cons, hk, ih]

/-- Two successive pointwise updates of the same handle compose. -/
theorem assocUpd_assocUpd (l : List (Nat × List Entry)) (h : Nat)
    (f g : List Entry → List Entry) :
    assocUpd (assocUpd l h f) h g = assocUpd l h (fun e => g (f e)) := by
  induction l with
  | nil => rfl
  | cons p rest ih =>
    obtain ⟨k, v⟩ := p
    by_cases hk : k = h
    · subst hk
      simp [assocUpd_cons, ih]
    · simp [assocUpd_cons, hk, ih]

/-- Unfolding of `byteCmp` on two empty views. -/
theorem byteCmp_nil_nil : byteCmp [] [] = .eq := rfl

/-- Unfolding of `byteCmp` when only the left view is empty. -/
theorem byteCmp_nil_cons (b : Nat) (bs : Bytes) : byteCmp [] (b :: bs) = .lt := rfl

/-- Unfolding of `byteCmp` when only the right view is empty. -/
theorem byteCmp_cons_nil (a : Nat) (as : Bytes) : byteCmp (a :: as) [] = .gt := rfl

/-- Unfolding of `byteCmp` on two cons cells. -/
theorem byteCmp_cons (a b : Nat) (as bs : Bytes) :
    byteCmp (a :: as) (b :: bs)
      = if a < b then .lt else if b < a then .gt else byteCmp as bs := rfl

/-- `byteCmp` answers `eq` exactly on equal byte sequences. -/
theorem byteCmp_eq_iff (x y : Bytes) : byteCmp x y = .eq ↔ x = y := by
  induction x generalizing y with
  | nil =>
    cases y with
    | nil => simp [byteCmp_nil_nil]
    | cons b bs => simp [byteCmp_nil_cons]
  | cons a as ih =>
    cases y with
    | nil => simp [byteCmp_cons_nil]
    | cons b bs =>
      rcases Nat.lt_trichotomy a b with h1 | rfl | h1
      · rw [byteCmp_cons, if_pos h1]
        simp only [List.cons.injEq]
        constructor
        · intro hc; exact Ordering.noConfusion hc
        · rintro ⟨rfl, -⟩; exact absurd h1 (lt_irrefl a)
      · rw [byteCmp_cons, if_neg (lt_irrefl a), if_neg (lt_irrefl a)]
        simp [ih]
      · rw [byteCmp_cons, if_neg (Nat.lt_asymm h1), if_pos h1]
        simp only [List.cons.injEq]
        constructor
        · intro hc; exact Ordering.noConfusion hc
        · rintro ⟨rfl, -⟩; exact absurd h1 (lt_irrefl a)

/-- `byteCmp` answers `lt` exactly on lexicographically smaller left views. -/
theorem byteCmp_lt_iff (x y : Bytes) :
    byteCmp x y = .lt ↔ List.Lex (· < ·) x y := by
  induction x generalizing y with
  | nil =>
    cases y with
    | nil =>
      rw [byteCmp_nil_nil]
      constructor
      · intro hc; exact Ordering.noConfusion hc
      · intro hl; cases hl
    | cons b bs =>
      rw [byteCmp_nil_cons]
      simp only [true_iff]
      exact List.Lex.nil
  | cons a as ih =>
    cases y with
    | nil =>
      rw [byteCmp_cons_nil]
      constructor
      · intro hc; exact Ordering.noConfusion hc
      · intro hl; cases hl
    | cons b bs =>
      rcases Nat.lt_trichotomy a b with h1 | rfl | h1
      · rw [byteCmp_cons, if_pos h1]
        simp only [true_iff]
        exact List.Lex.rel h1
      · rw [byteCmp_cons, if_neg (lt_irrefl a), if_neg (lt_irrefl a)]
        constructor
        · intro hc; exact List.Lex.cons ((ih bs).mp hc)
        · intro hl
          cases hl with
          | cons h₂ => exact (ih bs).mpr h₂
          | rel h₂ => exact absurd h₂ (lt_irrefl a)
      · rw [byteCmp_cons, if_neg (Nat.lt_asymm h1), if_pos h1]
        constructor
        · intro hc; exact Ordering.noConfusion hc
        · intro hl
          cases hl with
          | cons h₂ => exact absurd h1 (lt_irrefl a)
          | rel h₂ => exact absurd (Nat.lt_trans h₂ h1) (lt_irrefl a)

/-- `byteCmp` answers `gt` exactly on lexicographically smaller right views. -/
theorem byteCmp_gt_iff (x y : Bytes) :
    byteCmp x y = .gt ↔ List.Lex (· < ·) y x := by
  induction x generalizing y with
  | nil =>
    cases y with
    | nil =>
      rw [byteCmp_nil_nil]
      constructor
      · intro hc; exact Ordering.noConfusion hc
      · intro hl; cases hl
    | cons b bs =>
      rw [byteCmp_nil_cons]
      constructor
      · intro hc; exact Ordering.noConfusion hc
      · intro hl; cases hl
  | cons a as ih =>
    cases y with
    | nil =>
      rw [byteCmp_cons_nil]
      simp only [true_iff]
      exact List.Lex.nil
    | cons b bs =>
      rcases Nat.lt_trichotomy a b with h1 | rfl | h1
      · rw [byteCmp_cons, if_pos h1]
        constructor
        · intro hc; exact Ordering.noConfusion hc
        · intro hl
          cases hl with
          | cons h₂ => exact absurd h1 (lt_irrefl a)
          | rel h₂ => exact absurd (Nat.lt_trans h₂ h1) (lt_irrefl b)
      · rw [byteCmp_cons, if_neg (lt_irrefl a), if_neg (lt_irrefl a)]
        constructor
        · intro hc; exact List.Lex.cons ((ih bs).mp hc)
        · intro hl
          cases hl with
          | cons h₂ => exact (ih bs).mpr h₂
          | rel h₂ => exact absurd h₂ (lt_irrefl a)
      · rw [byteCmp_cons, if_neg (Nat.lt_asymm h1), if_pos h1]
        simp only [true_iff]
        exact List.Lex.rel h1

/-- C1: for every open database and every batch whose native handle has been
allocated, `write` submits the batch and then unconditionally clears the
batch's pending entries: whether the engine reports success (`resp = none`,
result `Ok(())`) or an error string (`resp = some msg`, result
`EngineFailure`), the engine-side entry list of the batch handle is empty
afterwards. -/
theorem write_clears_pending (db : Database) (b : WriteBatch) (es : EngineState)
    (resp : Option String) (dbh bh : Nat)
    (hdb : db.ptr = some dbh) (hb : b.ptr = some bh)
    (halloc : (lookupBatch es bh).isSome) :
    ∃ es', write db b es resp
        = some (b, es',
            resp.elim (Except.ok ()) (fun msg => Except.error (error.new msg)))
      ∧ lookupBatch es' bh = some [] := by
  obtain ⟨entries, hent⟩ := Option.isSome_iff_exists.mp halloc
  refine ⟨leveldb_writebatch_clear (leveldb_write es dbh bh) bh, ?_, ?_⟩
  · cases resp <;> simp [write, hb, as_ptr, hdb, Option.elim]
  · simp only [lookupBatch, leveldb_writebatch_clear, leveldb_write,
      assocFind_assocUpd]
    simp only [lookupBatch] at hent
    rw [hent]
    rfl

/-- C1 witness: concrete evaluation on an open database, an allocated batch
with one pending entry, and a failing engine write. -/
theorem write_clears_pending_witness :
    ∃ es', write ⟨some 0⟩ ⟨some 1⟩ sampleEngine (some "io error")
        = some (⟨some 1⟩, es',
            (some "io error").elim (Except.ok ())
              (fun msg => Except.error (error.new msg)))
      ∧ lookupBatch es' 1 = some [] :=
  write_clears_pending ⟨some 0⟩ ⟨some 1⟩ sampleEngine (some "io error") 0 1
    rfl rfl (by decide)

/-- C2: with an open database, `get` returns `Ok` in both success cases — a
found key yields a buffer whose byte view is exactly the stored bytes (hence
of exactly the stored length, possibly zero), a not-found key yields the
empty, unallocated buffer — and it returns an `EngineFailure` carrying the
message exactly when the engine reports an error string. -/
theorem get_ok_and_failure (db : Database) (key : Bytes) (resp : GetResp)
    (dbh : Nat) (hdb : db.ptr = some dbh) :
    (∀ bytes, resp = .found bytes →
      ∃ o, get db key resp = some (Except.ok o)
        ∧ o.ptr_ = some bytes ∧ o.deref = bytes
        ∧ o.deref.length = bytes.length)
    ∧ (resp = .notFound →
      get db key resp = some (Except.ok ⟨none, 0⟩)
        ∧ Octets.deref ⟨none, 0⟩ = [])
    ∧ (∀ msg,
        get db key resp = some (Except.error (error.new msg))
          ↔ resp = .failure msg) := by
  refine ⟨?_, ?_, ?_⟩
  · rintro bytes rfl
    exact ⟨⟨some bytes, bytes.length⟩,
      by simp [get, as_ptr, hdb, Octets.new],
      rfl, by simp [Octets.deref], by simp [Octets.deref]⟩
  · rintro rfl
    exact ⟨by simp [get, as_ptr, hdb, Octets.new], rfl⟩
  · intro msg
    cases resp <;> simp [get, as_ptr, hdb, Octets.new, error.new]

/-- C2 witness: concrete evaluation of the three engine responses on an open
database. -/
theorem get_ok_and_failure_witness :
    (∀ bytes, GetResp.found [5, 6] = .found bytes →
      ∃ o, get ⟨some 0⟩ [1] (.found [5, 6]) = some (Except.ok o)
        ∧ o.ptr_ = some bytes ∧ o.deref = bytes
        ∧ o.deref.length = bytes.length)
    ∧ (GetResp.found [5, 6] = .notFound →
      get ⟨some 0⟩ [1] (.found [5, 6]) = some (Except.ok ⟨none, 0⟩)
        ∧ Octets.deref ⟨none, 0⟩ = [])
    ∧ (∀ msg,
        get ⟨some 0⟩ [1] (.found [5, 6]) = some (Except.error (error.new msg))
          ↔ GetResp.found [5, 6] = .failure msg) :=
  get_ok_and_failure ⟨some 0⟩ [1] (.found [5, 6]) 0 rfl

/-- C3 counterexample: the claim says `write` against a database handle that
has never been opened panics regardless of the arguments supplied, but with a
batch whose native handle was never allocated `write` returns `Ok(())` on an
unopened database instead of panicking. -/
theorem write_unopened_empty_batch_no_panic :
    write Database.new WriteBatch.new EngineState.init none
      = some (WriteBatch.new, EngineState.init, Except.ok ()) := rfl

/-- C3 amended: `open` on an already-open handle panics; `get` against an
unopened handle panics for every key and engine response; `write` against an
unopened handle panics whenever the batch's native handle is allocated, but
with a never-allocated (Empty) batch it returns `Ok(())` without touching the
database. -/
theorem misuse_panics (db : Database) (b : WriteBatch) (key path : Bytes)
    (es : EngineState) (oresp : OpenResp) (wresp : Option String)
    (gresp : GetResp) :
    (db.ptr ≠ none → Database.open db es path oresp = none)
    ∧ (db.ptr = none → get db key gresp = none)
    ∧ (db.ptr = none → b.ptr ≠ none → write db b es wresp = none)
    ∧ (db.ptr = none → b.ptr = none →
        write db b es wresp = some (b, es, Except.ok ())) := by
  obtain ⟨dp⟩ := db
  obtain ⟨bp⟩ := b
  cases dp <;> cases bp <;>
    simp [Database.open, get, write, as_ptr]

/-- C3 amended witness: concrete evaluations for each of the four cases. -/
theorem misuse_panics_witness :
    Database.open ⟨some 3⟩ EngineState.init [7] (.success 5) = none
    ∧ get ⟨none⟩ [1] .notFound = none
    ∧ write ⟨none⟩ ⟨some 2⟩ EngineState.init none = none
    ∧ write ⟨none⟩ ⟨none⟩ EngineState.init (some "e")
        = some (⟨none⟩, EngineState.init, Except.ok ()) :=
  ⟨(misuse_panics ⟨some 3⟩ ⟨none⟩ [1] [7] EngineState.init (.success 5) none
      .notFound).1 (by simp),
   (misuse_panics ⟨none⟩ ⟨none⟩ [1] [7] EngineState.init (.success 5) none
      .notFound).2.1 rfl,
   (misuse_panics ⟨none⟩ ⟨some 2⟩ [1] [7] EngineState.init (.success 5) none
      .notFound).2.2.1 rfl (by simp),
   (misuse_panics ⟨none⟩ ⟨none⟩ [1] [7] EngineState.init (.success 5)
      (some "e") .notFound).2.2.2 rfl rfl⟩

/-- C4: on an unopened handle, `open` returns an `EngineFailure` carrying the
native message exactly when the engine reports an error string, and then the
handle stays `Unopened` (the returned handle is the unchanged `db`); on
success it transitions to `Open` holding the engine-returned resource. -/
theorem open_failure_and_success (db : Database) (es : EngineState)
    (path : Bytes) (resp : OpenResp) (hdb : db.ptr = none) :
    (∀ msg, resp = .failure msg →
      Database.open db es path resp
        = some (db, { es with openLog := (OPTIONS, path) :: es.openLog },
            Except.error (error.new msg)))
    ∧ (∀ h, resp = .success h →
      Database.open db es path resp
        = some (⟨some h⟩, { es with openLog := (OPTIONS, path) :: es.openLog },
            Except.ok ())) := by
  refine ⟨?_, ?_⟩
  · rintro msg rfl
    simp [Database.open, hdb]
  · rintro h rfl
    simp [Database.open, hdb]

/-- C4 witness: concrete evaluation of a failing and a succeeding open. -/
theorem open_failure_and_success_witness :
    (∀ msg, OpenResp.failure "corrupt" = .failure msg →
      Database.open ⟨none⟩ EngineState.init [7] (.failure "corrupt")
        = some (⟨none⟩,
            { EngineState.init with
                openLog := (OPTIONS, [7]) :: EngineState.init.openLog },
            Except.error (error.new msg)))
    ∧ (∀ h, OpenResp.failure "corrupt" = .success h →
      Database.open ⟨none⟩ EngineState.init [7] (.failure "corrupt")
        = some (⟨some h⟩,
            { EngineState.init with
                openLog := (OPTIONS, [7]) :: EngineState.init.openLog },
            Except.ok ())) :=
  open_failure_and_success ⟨none⟩ EngineState.init [7] (.failure "corrupt") rfl

/-- C5: on an open database, `write` on a batch whose native handle was never
allocated returns `Ok(())`, leaves the engine state untouched (in particular
no `leveldb_write` submission is logged) and leaves the batch unchanged. -/
theorem write_empty_batch_noop (db : Database) (b : WriteBatch)
    (es : EngineState) (resp : Option String) (dbh : Nat)
    (hdb : db.ptr = some dbh) (hb : b.ptr = none) :
    write db b es resp = some (b, es, Except.ok ()) := by
  simp [write, hb]

/-- C5 witness: concrete evaluation on an open database and an empty batch. -/
theorem write_empty_batch_noop_witness :
    write ⟨some 0⟩ ⟨none⟩ sampleEngine (some "io error")
      = some (⟨none⟩, sampleEngine, Except.ok ()) :=
  write_empty_batch_noop ⟨some 0⟩ ⟨none⟩ sampleEngine (some "io error") 0
    rfl rfl

/-- C6: on an open database, `write` on a batch with an allocated native
handle returns the batch itself unchanged (same allocated handle) and the
handle stays allocated on the engine side, whether the engine reports success
or failure. -/
theorem write_retains_handle (db : Database) (b : WriteBatch) (es : EngineState)
    (resp : Option String) (dbh bh : Nat)
    (hdb : db.ptr = some dbh) (hb : b.ptr = some bh)
    (halloc : (lookupBatch es bh).isSome) :
    ∃ es' r, write db b es resp = some (b, es', r)
      ∧ (lookupBatch es' bh).isSome := by
  obtain ⟨entries, hent⟩ := Option.isSome_iff_exists.mp halloc
  refine ⟨leveldb_writebatch_clear (leveldb_write es dbh bh) bh,
    resp.elim (Except.ok ()) (fun msg => Except.error (error.new msg)), ?_, ?_⟩
  · cases resp <;> simp [write, hb, as_ptr, hdb, Option.elim]
  · simp only [lookupBatch, leveldb_writebatch_clear, leveldb_write,
      assocFind_assocUpd]
    simp only [lookupBatch] at hent
    rw [hent]
    rfl

/-- C6 witness: concrete evaluation with a failing engine write. -/
theorem write_retains_handle_witness :
    ∃ es' r, write ⟨some 0⟩ ⟨some 1⟩ sampleEngine (some "io error")
        = some (⟨some 1⟩, es', r)
      ∧ (lookupBatch es' 1).isSome :=
  write_retains_handle ⟨some 0⟩ ⟨some 1⟩ sampleEngine (some "io error") 0 1
    rfl rfl (by decide)

/-- C7: `WriteBatch::clear`, `WriteBatch::destroy` and `Database::close` are
total functions of the model (they never panic) and are idempotent: a second
call is the identity, so the native resource is released at most once; after
`destroy` (resp. `close`) the state is `Empty` (resp. `Unopened`); `clear`
returns the batch with its handle untouched; and on a freshly created,
never-populated instance all three leave the engine state untouched (no
release is issued at all). -/
theorem clear_destroy_close_idempotent (b : WriteBatch) (db : Database)
    (es : EngineState) :
    WriteBatch.destroy (WriteBatch.destroy b es).1 (WriteBatch.destroy b es).2
      = WriteBatch.destroy b es
    ∧ (WriteBatch.destroy b es).1.ptr = none
    ∧ (WriteBatch.clear b es).1 = b
    ∧ WriteBatch.clear (WriteBatch.clear b es).1 (WriteBatch.clear b es).2
      = WriteBatch.clear b es
    ∧ Database.close (Database.close db es).1 (Database.close db es).2
      = Database.close db es
    ∧ (Database.close db es).1.ptr = none
    ∧ WriteBatch.clear WriteBatch.new es = (WriteBatch.new, es)
    ∧ WriteBatch.destroy WriteBatch.new es = (WriteBatch.new, es)
    ∧ Database.close Database.new es = (Database.new, es) := by
  obtain ⟨bp⟩ := b
  obtain ⟨dp⟩ := db
  cases bp <;> cases dp <;>
    simp [WriteBatch.destroy, WriteBatch.clear, Database.close,
      WriteBatch.new, Database.new, leveldb_writebatch_clear,
      leveldb_writebatch_destroy, leveldb_close, assocUpd_assocUpd]

/-- C8: the process-wide open configuration sets exactly
`create_if_missing = true`, `error_if_exists = false`,
`paranoid_checks = true`, and every engine open call receives exactly this
one-time value (the engine-side open log records `OPTIONS` itself, which the
embedding never modifies after its construction by `Options.new`). -/
theorem options_fixed_and_passed (db : Database) (es : EngineState)
    (path : Bytes) (resp : OpenResp) (hdb : db.ptr = none) :
    OPTIONS = { create_if_missing := true, error_if_exists := false,
                paranoid_checks := true }
    ∧ OPTIONS = Options.new
    ∧ ∃ db' es' r, Database.open db es path resp = some (db', es', r)
        ∧ es'.openLog = (OPTIONS, path) :: es.openLog := by
  refine ⟨rfl, rfl, ?_⟩
  cases resp with
  | failure msg =>
    refine ⟨db, { es with openLog := (OPTIONS, path) :: es.openLog },
      Except.error (error.new msg), ?_, rfl⟩
    simp [Database.open, hdb]
  | success h =>
    refine ⟨⟨some h⟩, { es with openLog := (OPTIONS, path) :: es.openLog },
      Except.ok (), ?_, rfl⟩
    simp [Database.open, hdb]

/-- C8 witness: concrete evaluation of one open call. -/
theorem options_fixed_and_passed_witness :
    OPTIONS = { create_if_missing := true, error_if_exists := false,
                paranoid_checks := true }
    ∧ OPTIONS = Options.new
    ∧ ∃ db' es' r,
        Database.open ⟨none⟩ EngineState.init [7] (.success 4)
          = some (db', es', r)
        ∧ es'.openLog = (OPTIONS, [7]) :: EngineState.init.openLog :=
  options_fixed_and_passed ⟨none⟩ EngineState.init [7] (.success 4) rfl

/-- C9: equality, ordering and hashing of `Octets` are structural over the
byte views: `==` holds iff the views are equal, `cmp` answers `eq`/`lt`/`gt`
exactly according to equality and the lexicographic order `List.Lex (· < ·)`
of the views, and equal views hash identically under every hasher — all this
for arbitrary buffers, engine-backed or absent. -/
theorem octets_structural (a b : Octets) (f : Bytes → Nat) :
    (Octets.beq a b = true ↔ a.deref = b.deref)
    ∧ (Octets.cmp a b = .eq ↔ a.deref = b.deref)
    ∧ (Octets.cmp a b = .lt ↔ List.Lex (· < ·) a.deref b.deref)
    ∧ (Octets.cmp a b = .gt ↔ List.Lex (· < ·) b.deref a.deref)
    ∧ (a.deref = b.deref → Octets.hash f a = Octets.hash f b) := by
  refine ⟨?_, byteCmp_eq_iff _ _, byteCmp_lt_iff _ _, byteCmp_gt_iff _ _, ?_⟩
  · simp [Octets.beq]
  · intro h
    simp [Octets.hash, h]

/-- C9 witness: concrete evaluation on an engine-backed and an absent buffer. -/
theorem octets_structural_witness :
    (Octets.beq ⟨some [1, 2], 2⟩ ⟨none, 0⟩ = true
      ↔ Octets.deref ⟨some [1, 2], 2⟩ = Octets.deref ⟨none, 0⟩)
    ∧ (Octets.cmp ⟨some [1, 2], 2⟩ ⟨none, 0⟩ = .eq
      ↔ Octets.deref ⟨some [1, 2], 2⟩ = Octets.deref ⟨none, 0⟩)
    ∧ (Octets.cmp ⟨some [1, 2], 2⟩ ⟨none, 0⟩ = .lt
      ↔ List.Lex (· < ·) (Octets.deref ⟨some [1, 2], 2⟩)
          (Octets.deref ⟨none, 0⟩))
    ∧ (Octets.cmp ⟨some [1, 2], 2⟩ ⟨none, 0⟩ = .gt
      ↔ List.Lex (· < ·) (Octets.deref ⟨none, 0⟩)
          (Octets.deref ⟨some [1, 2], 2⟩))
    ∧ (Octets.deref ⟨some [1, 2], 2⟩ = Octets.deref ⟨none, 0⟩ →
        Octets.hash List.length ⟨some [1, 2], 2⟩
          = Octets.hash List.length ⟨none, 0⟩) :=
  octets_structural ⟨some [1, 2], 2⟩ ⟨none, 0⟩ List.length

/-- C10: `WriteBatch::init` panics exactly when the native handle is already
allocated and otherwise allocates a fresh handle; and `put` never panics from
any state (in particular no sequence of `put`, `clear`, `write`, `destroy`
calls can reach the `init` panic through `put`, since `put` invokes `init`
only on the `Empty` state). -/
theorem init_panics_put_total (b : WriteBatch) (es : EngineState)
    (k v : Bytes) :
    (b.ptr ≠ none → WriteBatch.init b es = none)
    ∧ (b.ptr = none →
        WriteBatch.init b es
          = some (⟨some es.nextHandle⟩, (leveldb_writebatch_create es).1))
    ∧ (WriteBatch.put b es k v).isSome := by
  obtain ⟨bp⟩ := b
  cases bp <;>
    simp [WriteBatch.init, WriteBatch.put, leveldb_writebatch_create]

/-- C10 witness: concrete evaluations of a panicking init, a succeeding init,
and a never-panicking put from both states. -/
theorem init_panics_put_total_witness :
    WriteBatch.init ⟨some 7⟩ EngineState.init = none
    ∧ WriteBatch.init ⟨none⟩ EngineState.init
        = some (⟨some EngineState.init.nextHandle⟩,
            (leveldb_writebatch_create EngineState.init).1)
    ∧ (WriteBatch.put ⟨some 7⟩ EngineState.init [1] [2]).isSome
    ∧ (WriteBatch.put ⟨none⟩ EngineState.init [1] [2]).isSome :=
  ⟨(init_panics_put_total ⟨some 7⟩ EngineState.init [1] [2]).1 (by simp),
   (init_panics_put_total ⟨none⟩ EngineState.init [1] [2]).2.1 rfl,
   (init_panics_put_total ⟨some 7⟩ EngineState.init [1] [2]).2.2,
   (init_panics_put_total ⟨none⟩ EngineState.init [1] [2]).2.2⟩

end MouseLeveldb
